import Mathlib

/-!
Verification development for the route optimization engine in
`src/route_optimizer.py` and the embedded variant in `src/api/index.py`.

The Python code is shallowly embedded:
* distance matrices become functions `ℕ → ℕ → ℚ` (the Python code only ever
  indexes `matrix[i][j]` at in-range indices, where the list-of-lists and the
  function view agree);
* routes are `List ℕ` of stop indices;
* the imperative loops of `two_opt` / `nearest_neighbor` become fuel-based
  recursions whose fuel mirrors the source's own loop bounds
  (`max_iterations`, the size of the unvisited set);
* external services (geocoder, OpenRouteService) are oracles passed in as
  functions, and the fact that Python catches their exceptions is embedded by
  giving the oracle an explicit error outcome that the model handles;
* `time.time()` readings become an injected clock (a sequence of rationals).
-/

namespace RouteOpt

/-- `RouteOptimizer.calculate_route_distance` (route_optimizer.py lines
830-839): the sum of `matrix[route[i]][route[i+1]]` over consecutive pairs of
an *open* path; a route of length ≤ 1 has distance 0. -/
def calculate_route_distance : List ℕ → (ℕ → ℕ → ℚ) → ℚ
  | a :: b :: rest, d => d a b + calculate_route_distance (b :: rest) d
  | _, _ => 0

/-- The Python list surgery `route[:i] + route[i:j][::-1] + route[j:]`
(route_optimizer.py line 861): positions `i ≤ k < j` are reversed. -/
def reverseSegment (route : List ℕ) (i j : ℕ) : List ℕ :=
  route.take i ++ ((route.drop i).take (j - i)).reverse ++ route.drop j

/-- One full scan of the double loop of `RouteOptimizer.two_opt`
(route_optimizer.py lines 855-873): `i` ranges over `range(1, n-2)`,
`j` over `range(i+1, n)`, adjacent pairs (`j - i == 1`) are skipped, and the
first segment reversal whose route distance is strictly below `best` is
returned (first-improvement with `break` out of both loops). -/
def twoOptScan (route : List ℕ) (d : ℕ → ℕ → ℚ) (best : ℚ) : Option (List ℕ) :=
  (List.range' 1 (route.length - 3)).findSome? fun i =>
    (List.range' (i + 1) (route.length - (i + 1))).findSome? fun j =>
      if j - i = 1 then none
      else if calculate_route_distance (reverseSegment route i j) d < best then
        some (reverseSegment route i j)
      else none

/-- The `while iterations < max_iterations` loop of `RouteOptimizer.two_opt`
(route_optimizer.py lines 852-878), with the fuel playing the role of the
remaining iteration budget.  The source keeps `best_route` and `route` equal
at every loop boundary (both are set to `new_route` on an accepted move), so a
single route is carried.  Returns `(best_route, improved, iterations)`. -/
def twoOptLoop (d : ℕ → ℕ → ℚ) :
    ℕ → List ℕ → ℚ → Bool → ℕ → List ℕ × Bool × ℕ
  | 0, route, _, improved, iters => (route, improved, iters)
  | fuel + 1, route, best, improved, iters =>
    match twoOptScan route d best with
    | none => (route, improved, iters)
    | some nr => twoOptLoop d fuel nr (calculate_route_distance nr d) true (iters + 1)

/-- `RouteOptimizer.two_opt` (route_optimizer.py lines 841-881): routes of
length ≤ 3 are returned unchanged with `improved = False`; otherwise the
first-improvement loop runs with iteration budget `max_iterations`
(source default 1000). -/
def two_opt (route : List ℕ) (d : ℕ → ℕ → ℚ) (max_iterations : ℕ := 1000) :
    List ℕ × Bool :=
  if route.length ≤ 3 then (route, false)
  else
    let r := twoOptLoop d max_iterations route (calculate_route_distance route d) false 0
    (r.1, r.2.1)

/-- The final value of the `iterations` counter of `RouteOptimizer.two_opt`
(the number of improving passes that were applied). -/
def two_opt_iterations (route : List ℕ) (d : ℕ → ℕ → ℚ)
    (max_iterations : ℕ) : ℕ :=
  if route.length ≤ 3 then 0
  else (twoOptLoop d max_iterations route (calculate_route_distance route d) false 0).2.2

/-- Python's `min(unvisited, key=...)` with `unvisited` iterated as `x :: xs`:
the running best is replaced only on a strictly smaller key, so the first
element attaining the minimal key wins (route_optimizer.py line 823). -/
def pyMin (key : ℕ → ℚ) (x : ℕ) (xs : List ℕ) : ℕ :=
  xs.foldl (fun best y => if key y < key best then y else best) x

/-- The `while unvisited:` loop of `RouteOptimizer.nearest_neighbor`
(route_optimizer.py lines 822-827).  The unvisited set is kept as an
ascending list, matching CPython's iteration order for a set of small
consecutive ints; the loop runs exactly `|unvisited|` times, which the fuel
mirrors. -/
def nnLoop (d : ℕ → ℕ → ℚ) : ℕ → ℕ → List ℕ → List ℕ → List ℕ
  | 0, _, _, route => route
  | _ + 1, _, [], route => route
  | fuel + 1, current, u :: us, route =>
    let nearest := pyMin (d current) u us
    nnLoop d fuel nearest ((u :: us).erase nearest) (route ++ [nearest])

/-- `RouteOptimizer.nearest_neighbor` (route_optimizer.py lines 811-828) on an
`n × n` distance matrix. -/
def nearest_neighbor (d : ℕ → ℕ → ℚ) (n : ℕ) (start_index : ℕ) : List ℕ :=
  if n ≤ 1 then List.range n
  else nnLoop d (n - 1) start_index ((List.range n).erase start_index) [start_index]

/-- The part of the result dictionary of `RouteOptimizer.optimize_route`
(route_optimizer.py lines 912-936) that the distance claims are about.  The
source reports `original_distance` and `optimized_distance` rounded to two
decimals; rounding is monotone, so order relations between the reported
values coincide with those between the values recorded here. -/
structure OptResult where
  original_order : List ℕ
  optimized_order : List ℕ
  original_distance : ℚ
  optimized_distance : ℚ
deriving Repr, DecidableEq

/-- The algorithm dispatch of `RouteOptimizer.optimize_route`
(route_optimizer.py lines 912-936), applied to the `n × n` distance matrix the
call built for the stop list (`n = len(stops) ≥ 2`).  `none` embeds the
`ValueError` raised for an unknown algorithm name. -/
def optimize_route_core (n : ℕ) (d : ℕ → ℕ → ℚ) (algorithm : String) :
    Option OptResult :=
  let original_order := List.range n
  let original_distance := calculate_route_distance original_order d
  let optimized? : Option (List ℕ) :=
    if algorithm = "nearest_neighbor" then some (nearest_neighbor d n 0)
    else if algorithm = "2_opt" then some (two_opt original_order d).1
    else if algorithm = "both" then some (two_opt (nearest_neighbor d n 0) d).1
    else none
  optimized?.map fun optimized_order =>
    { original_order := original_order
      optimized_order := optimized_order
      original_distance := original_distance
      optimized_distance := calculate_route_distance optimized_order d }

/-- The closure `calculate_route_distance` inside `optimize_route_2opt`
(api/index.py lines 113-119): the sum of `distances[(route[i],
route[(i+1) % len(route)])]` over *all* positions, i.e. a closed tour
including the wrap-around edge. -/
def api_calculate_route_distance (route : List ℕ) (d : ℕ → ℕ → ℚ) : ℚ :=
  (List.range route.length).foldl
    (fun total i => total + d (route.getD i 0) (route.getD ((i + 1) % route.length) 0)) 0

/-- The index pairs scanned by one pass of `optimize_route_2opt`
(api/index.py lines 138-139): `i` in `range(1, n-1)`, `j` in `range(i+1, n)`. -/
def apiPairs (n : ℕ) : List (ℕ × ℕ) :=
  (List.range' 1 (n - 2)).flatMap fun i =>
    (List.range' (i + 1) (n - (i + 1))).map fun j => (i, j)

/-- One pass of the double loop of `optimize_route_2opt` (api/index.py lines
138-149): every improving reversal found during the pass is applied
immediately (`new_route[i:j+1] = reversed(...)` reverses positions `i..j`
inclusive) and scanning continues with the updated route. -/
def apiPass (d : ℕ → ℕ → ℚ) (n : ℕ) (route : List ℕ) (dist : ℚ) :
    List ℕ × ℚ × Bool :=
  (apiPairs n).foldl
    (fun state p =>
      let nr := reverseSegment state.1 p.1 (p.2 + 1)
      let nd := api_calculate_route_distance nr d
      if nd < state.2.1 then (nr, nd, true) else state)
    (route, dist, false)

/-- The `while improved and iterations < max_iterations` loop of
`optimize_route_2opt` (api/index.py lines 134-149); returns the final route,
its distance, and the number of passes executed. -/
def apiLoop (d : ℕ → ℕ → ℚ) (n : ℕ) : ℕ → List ℕ → ℚ → List ℕ × ℚ × ℕ
  | 0, route, dist => (route, dist, 0)
  | fuel + 1, route, dist =>
    let s := apiPass d n route dist
    if s.2.2 then
      let r := apiLoop d n fuel s.1 s.2.1
      (r.1, r.2.1, r.2.2 + 1)
    else (s.1, s.2.1, 1)

/-- `optimize_route_2opt` (api/index.py lines 97-161) in terms of the stop
indices: returns `(current_route, distance_saved, current_distance)`.  Fewer
than 3 stops, or an original distance of exactly 0, short-circuit to the
input order; otherwise at most `max_iterations = 50` passes run. -/
def optimize_route_2opt_core (n : ℕ) (d : ℕ → ℕ → ℚ) : List ℕ × ℚ × ℚ :=
  if n < 3 then (List.range n, 0, 0)
  else
    let current_route := List.range n
    let original_distance := api_calculate_route_distance current_route d
    if original_distance = 0 then (List.range n, 0, 0)
    else
      let r := apiLoop d n 50 current_route original_distance
      (r.1, original_distance - r.2.1, r.2.1)

/-- The final value of the `iterations` counter of `optimize_route_2opt`. -/
def optimize_route_2opt_iterations (n : ℕ) (d : ℕ → ℕ → ℚ) : ℕ :=
  if n < 3 then 0
  else
    let current_route := List.range n
    let original_distance := api_calculate_route_distance current_route d
    if original_distance = 0 then 0
    else (apiLoop d n 50 current_route original_distance).2.2

/-! ### Helper lemmas about the 2-opt primitives -/

theorem reverseSegment_perm (route : List ℕ) {i j : ℕ} (hij : i ≤ j) :
    (reverseSegment route i j).Perm route := by
  have h2 : (route.drop i).drop (j - i) = route.drop j := by
    rw [List.drop_drop]
    congr 1
    omega
  have hsplit : route.take i ++ ((route.drop i).take (j - i) ++ route.drop j) = route := by
    rw [← h2, List.take_append_drop, List.take_append_drop]
  rw [reverseSegment, List.append_assoc]
  have hperm :=
    List.Perm.append_left (route.take i)
      ((List.reverse_perm ((route.drop i).take (j - i))).append_right (route.drop j))
  rw [hsplit] at hperm
  exact hperm

theorem twoOptScan_eq_some {route nr : List ℕ} {d : ℕ → ℕ → ℚ} {best : ℚ}
    (h : twoOptScan route d best = some nr) :
    calculate_route_distance nr d < best ∧ nr.Perm route := by
  rw [twoOptScan] at h
  obtain ⟨i, hi, h2⟩ := List.exists_of_findSome?_eq_some h
  obtain ⟨j, hj, h3⟩ := List.exists_of_findSome?_eq_some h2
  by_cases hadj : j - i = 1
  · simp [hadj] at h3
  · rw [if_neg hadj] at h3
    by_cases himp : calculate_route_distance (reverseSegment route i j) d < best
    · rw [if_pos himp] at h3
      obtain rfl : reverseSegment route i j = nr := by
        simpa using h3
      have hij : i ≤ j := by
        have := List.mem_range'_1.mp hj
        omega
      exact ⟨himp, reverseSegment_perm route hij⟩
    · simp [if_neg himp] at h3

theorem twoOptLoop_dist_le (d : ℕ → ℕ → ℚ) :
    ∀ (fuel : ℕ) (route : List ℕ) (improved : Bool) (iters : ℕ),
      calculate_route_distance
          (twoOptLoop d fuel route (calculate_route_distance route d) improved iters).1 d ≤
        calculate_route_distance route d
  | 0, _, _, _ => le_refl _
  | fuel + 1, route, improved, iters => by
    simp only [twoOptLoop]
    cases hscan : twoOptScan route d (calculate_route_distance route d) with
    | none => exact le_refl _
    | some nr =>
      exact le_trans (twoOptLoop_dist_le d fuel nr true (iters + 1))
        (le_of_lt (twoOptScan_eq_some hscan).1)

theorem twoOptLoop_perm (d : ℕ → ℕ → ℚ) :
    ∀ (fuel : ℕ) (route : List ℕ) (best : ℚ) (improved : Bool) (iters : ℕ),
      (twoOptLoop d fuel route best improved iters).1.Perm route
  | 0, _, _, _, _ => List.Perm.refl _
  | fuel + 1, route, best, improved, iters => by
    simp only [twoOptLoop]
    cases hscan : twoOptScan route d best with
    | none => exact List.Perm.refl _
    | some nr =>
      exact (twoOptLoop_perm d fuel nr (calculate_route_distance nr d) true (iters + 1)).trans
        (twoOptScan_eq_some hscan).2

theorem twoOptLoop_iters_le (d : ℕ → ℕ → ℚ) :
    ∀ (fuel : ℕ) (route : List ℕ) (best : ℚ) (improved : Bool) (iters : ℕ),
      (twoOptLoop d fuel route best improved iters).2.2 ≤ iters + fuel
  | 0, _, _, _, _ => le_refl _
  | fuel + 1, route, best, improved, iters => by
    cases hscan : twoOptScan route d best with
    | none =>
      simp only [twoOptLoop, hscan]
      omega
    | some nr =>
      simp only [twoOptLoop, hscan]
      have := twoOptLoop_iters_le d fuel nr (calculate_route_distance nr d) true (iters + 1)
      omega

theorem two_opt_dist_le (route : List ℕ) (d : ℕ → ℕ → ℚ) (M : ℕ) :
    calculate_route_distance (two_opt route d M).1 d ≤ calculate_route_distance route d := by
  rw [two_opt]
  split
  · exact le_refl _
  · exact twoOptLoop_dist_le d M route false 0

theorem two_opt_perm (route : List ℕ) (d : ℕ → ℕ → ℚ) (M : ℕ) :
    (two_opt route d M).1.Perm route := by
  rw [two_opt]
  split
  · exact List.Perm.refl _
  · exact twoOptLoop_perm d M route (calculate_route_distance route d) false 0

/-! ### Helper lemmas about the embedded (api/index.py) 2-opt -/

theorem apiPairs_lt {n : ℕ} {p : ℕ × ℕ} (hp : p ∈ apiPairs n) : p.1 < p.2 := by
  rw [apiPairs] at hp
  simp only [List.mem_flatMap, List.mem_map] at hp
  obtain ⟨i, hi, j, hj, rfl⟩ := hp
  have := List.mem_range'_1.mp hj
  omega

theorem apiFold_perm (d : ℕ → ℕ → ℚ) :
    ∀ (pairs : List (ℕ × ℕ)) (s : List ℕ × ℚ × Bool) (route : List ℕ),
      (∀ p ∈ pairs, p.1 ≤ p.2) → s.1.Perm route →
      (pairs.foldl
        (fun state p =>
          let nr := reverseSegment state.1 p.1 (p.2 + 1)
          let nd := api_calculate_route_distance nr d
          if nd < state.2.1 then (nr, nd, true) else state) s).1.Perm route
  | [], _, _, _, hs => hs
  | p :: rest, s, route, hall, hs => by
    rw [List.foldl_cons]
    refine apiFold_perm d rest _ route (fun q hq => hall q (List.mem_cons_of_mem _ hq)) ?_
    dsimp only
    split
    · exact (reverseSegment_perm s.1 (Nat.le_succ_of_le (hall p (List.mem_cons_self _ _)))).trans hs
    · exact hs

theorem apiPass_perm (d : ℕ → ℕ → ℚ) (n : ℕ) (route : List ℕ) (dist : ℚ) :
    (apiPass d n route dist).1.Perm route := by
  rw [apiPass]
  exact apiFold_perm d (apiPairs n) (route, dist, false) route
    (fun p hp => le_of_lt (apiPairs_lt hp)) (List.Perm.refl _)

theorem apiLoop_perm (d : ℕ → ℕ → ℚ) (n : ℕ) :
    ∀ (fuel : ℕ) (route : List ℕ) (dist : ℚ),
      (apiLoop d n fuel route dist).1.Perm route
  | 0, _, _ => List.Perm.refl _
  | fuel + 1, route, dist => by
    simp only [apiLoop]
    split
    · exact (apiLoop_perm d n fuel _ _).trans (apiPass_perm d n route dist)
    · exact apiPass_perm d n route dist

theorem apiLoop_iters_le (d : ℕ → ℕ → ℚ) (n : ℕ) :
    ∀ (fuel : ℕ) (route : List ℕ) (dist : ℚ),
      (apiLoop d n fuel route dist).2.2 ≤ fuel
  | 0, _, _ => le_refl _
  | fuel + 1, route, dist => by
    simp only [apiLoop]
    split
    · show (apiLoop d n fuel (apiPass d n route dist).1 (apiPass d n route dist).2.1).2.2 + 1 ≤
        fuel + 1
      have := apiLoop_iters_le d n fuel (apiPass d n route dist).1 (apiPass d n route dist).2.1
      omega
    · show 1 ≤ fuel + 1
      omega

/-! ### Claim C6 -/

/-- C6: `two_opt` terminates.  A route of length ≤ 3 is returned unchanged with
`improved = False`; otherwise the first-improvement loop performs at most
`max_iterations` improving passes and stops as soon as a full scan finds no
strictly improving segment reversal.  The embedded variant
`optimize_route_2opt` returns fewer than 3 stops unchanged and performs at
most 50 passes. -/
theorem C6_two_opt_termination (route : List ℕ) (d : ℕ → ℕ → ℚ) (M n : ℕ) :
    (route.length ≤ 3 → two_opt route d M = (route, false)) ∧
    two_opt_iterations route d M ≤ M ∧
    (∀ (fuel : ℕ) (best : ℚ) (improved : Bool) (iters : ℕ),
      twoOptScan route d best = none →
      twoOptLoop d (fuel + 1) route best improved iters = (route, improved, iters)) ∧
    (n < 3 → optimize_route_2opt_core n d = (List.range n, 0, 0)) ∧
    optimize_route_2opt_iterations n d ≤ 50 := by
  refine ⟨fun h => ?_, ?_, fun fuel best improved iters hscan => ?_, fun h => ?_, ?_⟩
  · rw [two_opt, if_pos h]
  · rw [two_opt_iterations]
    split
    · exact Nat.zero_le _
    · have := twoOptLoop_iters_le d M route (calculate_route_distance route d) false 0
      omega
  · simp only [twoOptLoop, hscan]
  · rw [optimize_route_2opt_core, if_pos h]
  · simp only [optimize_route_2opt_iterations]
    split
    · exact Nat.zero_le _
    · split
      · exact Nat.zero_le _
      · exact apiLoop_iters_le d n 50 _ _

/-- C6 witness: the theorem applied at a concrete length-3 route and a
concrete 2-stop embedded instance. -/
theorem C6_witness :
    two_opt [0, 1, 2] (fun _ _ => 0) 5 = ([0, 1, 2], false) ∧
    optimize_route_2opt_core 2 (fun _ _ => 0) = ([0, 1], 0, 0) := by
  constructor
  · exact (C6_two_opt_termination [0, 1, 2] (fun _ _ => 0) 5 2).1 (by decide)
  · have h := (C6_two_opt_termination [0, 1, 2] (fun _ _ => 0) 5 2).2.2.2.1 (by decide)
    simpa using h

/-! ### Claim C10 -/

/-- C10: both 2-opt implementations only ever reverse contiguous segments, so
the returned route is a permutation of the input route (for the embedded
variant, of the initial order `range n`): no stop is duplicated or dropped. -/
theorem C10_two_opt_preserves_stops (route : List ℕ) (d : ℕ → ℕ → ℚ) (M n : ℕ) :
    (two_opt route d M).1.Perm route ∧
    (optimize_route_2opt_core n d).1.Perm (List.range n) := by
  refine ⟨two_opt_perm route d M, ?_⟩
  simp only [optimize_route_2opt_core]
  split
  · exact List.Perm.refl _
  · split
    · exact List.Perm.refl _
    · exact apiLoop_perm d n 50 _ _

/-! ### Claim C1 -/

/-- Concrete asymmetric 4×4 distance matrix (diagonal 0, all entries ≥ 0)
realizable as a road-distance matrix; the nearest-neighbor construction from
index 0 produces the order `[0, 3, 1, 2]`, which is 2-opt-locally-optimal but
much worse than the identity order. -/
def dC1 : ℕ → ℕ → ℚ := fun i j =>
  if i = 0 ∧ j = 1 then 1 else if i = 0 ∧ j = 2 then 10 else if i = 0 ∧ j = 3 then 1/2
  else if i = 1 ∧ j = 0 then 1 else if i = 1 ∧ j = 2 then 1 else if i = 1 ∧ j = 3 then 10
  else if i = 2 ∧ j = 0 then 10 else if i = 2 ∧ j = 1 then 1 else if i = 2 ∧ j = 3 then 1
  else if i = 3 ∧ j = 0 then 1/2 else if i = 3 ∧ j = 1 then 10 else if i = 3 ∧ j = 2 then 11
  else 0

/-- Unfolding of the `"2_opt"` branch of the algorithm dispatch. -/
theorem optimize_route_core_two_opt_eq (n : ℕ) (d : ℕ → ℕ → ℚ) :
    optimize_route_core n d "2_opt" =
      some { original_order := List.range n,
             optimized_order := (two_opt (List.range n) d).1,
             original_distance := calculate_route_distance (List.range n) d,
             optimized_distance := calculate_route_distance (two_opt (List.range n) d).1 d } :=
  rfl

/-- Unfolding of the `"both"` branch of the algorithm dispatch. -/
theorem optimize_route_core_both_eq (n : ℕ) (d : ℕ → ℕ → ℚ) :
    optimize_route_core n d "both" =
      some { original_order := List.range n,
             optimized_order := (two_opt (nearest_neighbor d n 0) d).1,
             original_distance := calculate_route_distance (List.range n) d,
             optimized_distance :=
               calculate_route_distance (two_opt (nearest_neighbor d n 0) d).1 d } :=
  rfl

/-- C1 counterexample: with algorithm `"both"` on the 4-stop matrix `dC1`, the
reported optimized distance (23/2, reported as 11.5) exceeds the reported
original distance (3): `"both"` starts 2-opt from the nearest-neighbor order,
which can be worse than the identity order, and 2-opt cannot always recover. -/
theorem C1_counterexample :
    optimize_route_core 4 dC1 "both" =
      some { original_order := [0, 1, 2, 3], optimized_order := [0, 3, 1, 2],
             original_distance := 3, optimized_distance := 23/2 } ∧
    ¬ ((23 : ℚ) / 2 ≤ 3) := by
  constructor
  · rw [optimize_route_core_both_eq]
    norm_num [two_opt, twoOptLoop, twoOptScan, nearest_neighbor, nnLoop, pyMin,
      reverseSegment, calculate_route_distance, List.range_succ, List.range', dC1]
  · norm_num

/-- C1 (amended): with algorithm `"2_opt"` the reported optimized distance
never exceeds the reported original distance (2-opt starts from the identity
order and only accepts strictly improving moves); with `"both"` it never
exceeds the distance of the nearest-neighbor construction it starts from, but
(per `C1_counterexample`) may exceed the original distance. -/
theorem C1_two_opt_distance_le (n : ℕ) (d : ℕ → ℕ → ℚ) :
    (∀ r, optimize_route_core n d "2_opt" = some r →
      r.optimized_distance ≤ r.original_distance) ∧
    (∀ r, optimize_route_core n d "both" = some r →
      r.optimized_distance ≤ calculate_route_distance (nearest_neighbor d n 0) d) := by
  constructor
  · intro r hr
    rw [optimize_route_core_two_opt_eq] at hr
    obtain rfl := Option.some.inj hr
    exact two_opt_dist_le (List.range n) d 1000
  · intro r hr
    rw [optimize_route_core_both_eq] at hr
    obtain rfl := Option.some.inj hr
    exact two_opt_dist_le (nearest_neighbor d n 0) d 1000

/-- C1 witness: the amended theorem applied at the concrete matrix `dC1`. -/
theorem C1_witness :
    optimize_route_core 4 dC1 "2_opt" =
      some { original_order := [0, 1, 2, 3], optimized_order := [0, 1, 2, 3],
             original_distance := 3, optimized_distance := 3 } ∧
    (3 : ℚ) ≤ 3 := by
  have h2 : optimize_route_core 4 dC1 "2_opt" =
      some { original_order := [0, 1, 2, 3], optimized_order := [0, 1, 2, 3],
             original_distance := 3, optimized_distance := 3 } := by
    rw [optimize_route_core_two_opt_eq]
    norm_num [two_opt, twoOptLoop, twoOptScan, reverseSegment,
      calculate_route_distance, List.range_succ, List.range', dC1]
  exact ⟨h2, (C1_two_opt_distance_le 4 dC1).1 _ h2⟩

/-! ### Claim C4 -/

theorem foldl_add_eq (g : ℕ → ℚ) :
    ∀ (l : List ℕ) (init : ℚ), l.foldl (fun t i => t + g i) init = init + (l.map g).sum
  | [], init => by simp
  | x :: xs, init => by
    rw [List.foldl_cons, foldl_add_eq g xs, List.map_cons, List.sum_cons]
    ring

theorem calc_dist_eq_sum (d : ℕ → ℕ → ℚ) :
    ∀ route : List ℕ,
      calculate_route_distance route d =
        ((List.range (route.length - 1)).map
          (fun i => d (route.getD i 0) (route.getD (i + 1) 0))).sum
  | [] => by simp [calculate_route_distance]
  | [_] => by simp [calculate_route_distance]
  | a :: b :: rest => by
    rw [calculate_route_distance, calc_dist_eq_sum d (b :: rest)]
    simp only [List.length_cons, Nat.add_sub_cancel, List.range_succ_eq_map,
      List.map_cons, List.map_map, List.sum_cons, List.getD_cons_zero,
      List.getD_cons_succ, Function.comp_def, Nat.succ_eq_add_one]

theorem api_calc_dist_eq (route : List ℕ) (d : ℕ → ℕ → ℚ) (h : route ≠ []) :
    api_calculate_route_distance route d =
      calculate_route_distance route d + d (route.getLast h) (route.head h) := by
  obtain ⟨k, hk⟩ : ∃ k, route.length = k + 1 :=
    ⟨route.length - 1, by have := List.length_pos.mpr h; omega⟩
  rw [api_calculate_route_distance, foldl_add_eq, zero_add, hk, List.range_succ,
    List.map_append, List.sum_append, calc_dist_eq_sum, hk]
  simp only [Nat.add_sub_cancel, List.map_cons, List.map_nil, List.sum_cons,
    List.sum_nil, add_zero]
  congr 1
  · refine congrArg _ (List.map_congr_left fun i hi => ?_)
    have hilt := List.mem_range.mp hi
    rw [Nat.mod_eq_of_lt (by omega)]
  · rw [Nat.mod_self]
    congr 1
    · rw [List.getLast_eq_getElem, List.getD_eq_getElem _ _ (by omega)]
      congr 1
      omega
    · rw [List.head_eq_getElem, List.getD_eq_getElem _ _ (by omega)]

/-- Concrete asymmetric 2×2 pairwise distances on which the open-path and
closed-tour totals of the same route differ. -/
def dC4 : ℕ → ℕ → ℚ := fun i j =>
  if i = 0 ∧ j = 1 then 1 else if i = 1 ∧ j = 0 then 2 else 0

/-- C4: the primary engine's `calculate_route_distance` is an open-path cost
while the embedded variant's closure adds the wrap-around edge from the last
stop back to the first; on the concrete route `[0, 1]` over `dC4` the two
totals differ (1 vs 3). -/
theorem C4_open_path_vs_closed_tour (route : List ℕ) (d : ℕ → ℕ → ℚ) (h : route ≠ []) :
    api_calculate_route_distance route d =
      calculate_route_distance route d + d (route.getLast h) (route.head h) ∧
    calculate_route_distance [0, 1] dC4 = 1 ∧
    api_calculate_route_distance [0, 1] dC4 = 3 ∧
    calculate_route_distance [0, 1] dC4 ≠ api_calculate_route_distance [0, 1] dC4 :=
  ⟨api_calc_dist_eq route d h,
   by norm_num [calculate_route_distance, dC4],
   by norm_num [api_calculate_route_distance, List.range_succ, dC4],
   by norm_num [calculate_route_distance, api_calculate_route_distance, List.range_succ, dC4]⟩

/-- C4 witness: the theorem applied at the concrete route `[0, 1]`. -/
theorem C4_witness :
    api_calculate_route_distance [0, 1] dC4 =
      calculate_route_distance [0, 1] dC4 + dC4 1 0 :=
  (C4_open_path_vs_closed_tour [0, 1] dC4 (by decide)).1

/-! ### Claim C5 -/

/-- Modelled from the spec's wording for `nearestNeighbor`: among the
candidates `x :: xs`, the index with minimal `key`, ties broken by the lowest
index. -/
def specChoose (key : ℕ → ℚ) : ℕ → List ℕ → ℕ
  | x, [] => x
  | x, y :: ys =>
    if key x < key (specChoose key y ys) ∨
        (key x = key (specChoose key y ys) ∧ x ≤ specChoose key y ys) then x
    else specChoose key y ys

/-- Modelled from the spec: greedy construction — repeatedly move to the
nearest unvisited index by matrix distance, ties broken by lowest index,
until all are visited. -/
def specNNLoop (d : ℕ → ℕ → ℚ) : ℕ → ℕ → List ℕ → List ℕ → List ℕ
  | 0, _, _, route => route
  | _ + 1, _, [], route => route
  | fuel + 1, current, u :: us, route =>
    specNNLoop d fuel (specChoose (d current) u us)
      ((u :: us).erase (specChoose (d current) u us))
      (route ++ [specChoose (d current) u us])

/-- Modelled from the spec: `nearestNeighbor(matrix, start)` as the spec
describes it. -/
def specNearestNeighbor (d : ℕ → ℕ → ℚ) (n start : ℕ) : List ℕ :=
  if n ≤ 1 then List.range n
  else specNNLoop d (n - 1) start ((List.range n).erase start) [start]

theorem specChoose_lexmin (key : ℕ → ℚ) :
    ∀ (xs : List ℕ) (x : ℕ),
      (specChoose key x xs = x ∨ specChoose key x xs ∈ xs) ∧
      (∀ m, (m = x ∨ m ∈ xs) →
        key (specChoose key x xs) < key m ∨
          (key (specChoose key x xs) = key m ∧ specChoose key x xs ≤ m))
  | [], x => by
    refine ⟨Or.inl rfl, ?_⟩
    rintro m (rfl | hm)
    · exact Or.inr ⟨rfl, le_refl _⟩
    · cases hm
  | y :: ys, x => by
    obtain ⟨hzmem, hz⟩ := specChoose_lexmin key ys y
    simp only [specChoose]
    split
    case isTrue hcond =>
      refine ⟨Or.inl rfl, ?_⟩
      rintro m (rfl | hm)
      · exact Or.inr ⟨rfl, le_refl _⟩
      · have hzm := hz m (by simpa using hm)
        rcases hcond with hlt | ⟨heq, hle⟩
        · rcases hzm with h1 | ⟨h1, _⟩
          · exact Or.inl (lt_trans hlt h1)
          · exact Or.inl (h1 ▸ hlt)
        · rcases hzm with h1 | ⟨h1, h2⟩
          · exact Or.inl (heq ▸ h1)
          · exact Or.inr ⟨heq.trans h1, le_trans hle h2⟩
    case isFalse hcond =>
      push_neg at hcond
      obtain ⟨hnlt, htie⟩ := hcond
      refine ⟨Or.inr ?_, ?_⟩
      · rcases hzmem with h | h
        · simp [h]
        · exact List.mem_cons_of_mem _ h
      · rintro m (rfl | hm)
        · rcases lt_or_eq_of_le hnlt with h1 | h1
          · exact Or.inl h1
          · exact Or.inr ⟨h1, le_of_lt (htie h1.symm)⟩
        · exact hz m (by simpa using hm)

theorem pyMin_lexmin (key : ℕ → ℚ) :
    ∀ (xs : List ℕ) (x : ℕ),
      (∀ m ∈ xs, x ≤ m) → xs.Pairwise (· ≤ ·) →
      (pyMin key x xs = x ∨ pyMin key x xs ∈ xs) ∧
      (∀ m, (m = x ∨ m ∈ xs) →
        key (pyMin key x xs) < key m ∨
          (key (pyMin key x xs) = key m ∧ pyMin key x xs ≤ m))
  | [], x, _, _ => by
    refine ⟨Or.inl rfl, ?_⟩
    rintro m (rfl | hm)
    · exact Or.inr ⟨rfl, le_refl _⟩
    · cases hm
  | y :: ys, x, hxle, hsort => by
    rw [List.pairwise_cons] at hsort
    obtain ⟨hyle, hsort'⟩ := hsort
    have hxy : x ≤ y := hxle y (List.mem_cons_self _ _)
    by_cases hyx : key y < key x
    · have hrec := pyMin_lexmin key ys y hyle hsort'
      have hstep : pyMin key x (y :: ys) = pyMin key y ys := by
        simp [pyMin, if_pos hyx]
      rw [hstep]
      refine ⟨Or.inr ?_, ?_⟩
      · rcases hrec.1 with h | h
        · simp [h]
        · exact List.mem_cons_of_mem _ h
      · rintro m (rfl | hm)
        · rcases hrec.2 y (Or.inl rfl) with h1 | ⟨h1, _⟩
          · exact Or.inl (lt_trans h1 hyx)
          · exact Or.inl (h1 ▸ hyx)
        · exact hrec.2 m (by simpa using hm)
    · have hxley : key x ≤ key y := le_of_not_lt hyx
      have hxle' : ∀ m ∈ ys, x ≤ m := fun m hm => le_trans hxy (hyle m hm)
      have hrec := pyMin_lexmin key ys x hxle' hsort'
      have hstep : pyMin key x (y :: ys) = pyMin key x ys := by
        simp [pyMin, if_neg hyx]
      rw [hstep]
      refine ⟨?_, ?_⟩
      · rcases hrec.1 with h | h
        · exact Or.inl h
        · exact Or.inr (List.mem_cons_of_mem _ h)
      · rintro m (rfl | hm)
        · exact hrec.2 m (Or.inl rfl)
        · rcases (by simpa using hm : m = y ∨ m ∈ ys) with rfl | hm'
          · rcases hrec.2 x (Or.inl rfl) with h1 | ⟨h1, h2⟩
            · rcases lt_or_eq_of_le hxley with h3 | h3
              · exact Or.inl (lt_trans h1 h3)
              · exact Or.inl (h3 ▸ h1)
            · rcases lt_or_eq_of_le hxley with h3 | h3
              · exact Or.inl (h1 ▸ h3)
              · exact Or.inr ⟨h1.trans h3, le_trans h2 hxy⟩
          · exact hrec.2 m (Or.inr hm')

theorem pyMin_eq_specChoose (key : ℕ → ℚ) (xs : List ℕ) (x : ℕ)
    (hxle : ∀ m ∈ xs, x ≤ m) (hsort : xs.Pairwise (· ≤ ·)) :
    pyMin key x xs = specChoose key x xs := by
  obtain ⟨hmem1, h1⟩ := pyMin_lexmin key xs x hxle hsort
  obtain ⟨hmem2, h2⟩ := specChoose_lexmin key xs x
  rcases h1 (specChoose key x xs) hmem2 with ha | ⟨ha, ha'⟩
  · rcases h2 (pyMin key x xs) hmem1 with hb | ⟨hb, _⟩
    · exact absurd (lt_trans ha hb) (lt_irrefl _)
    · exact absurd (hb ▸ ha) (lt_irrefl _)
  · rcases h2 (pyMin key x xs) hmem1 with hb | ⟨_, hb'⟩
    · exact absurd (ha ▸ hb) (lt_irrefl _)
    · exact le_antisymm ha' hb'

theorem nnLoop_eq_specNNLoop (d : ℕ → ℕ → ℚ) :
    ∀ (fuel current : ℕ) (unvisited route : List ℕ),
      unvisited.Pairwise (· ≤ ·) →
      nnLoop d fuel current unvisited route = specNNLoop d fuel current unvisited route
  | 0, _, _, _, _ => rfl
  | _ + 1, _, [], _, _ => rfl
  | fuel + 1, current, u :: us, route, hsort => by
    have hsort' := List.pairwise_cons.mp hsort
    have hch := pyMin_eq_specChoose (d current) us u hsort'.1 hsort'.2
    simp only [nnLoop, specNNLoop, hch]
    exact nnLoop_eq_specNNLoop d fuel _ _ _
      (List.Pairwise.sublist (List.erase_sublist _ _) hsort)

theorem pyMin_mem (key : ℕ → ℚ) :
    ∀ (xs : List ℕ) (x : ℕ), pyMin key x xs = x ∨ pyMin key x xs ∈ xs
  | [], _ => Or.inl rfl
  | y :: ys, x => by
    by_cases hyx : key y < key x
    · have hstep : pyMin key x (y :: ys) = pyMin key y ys := by
        simp [pyMin, if_pos hyx]
      rw [hstep]
      rcases pyMin_mem key ys y with h | h
      · exact Or.inr (by simp [h])
      · exact Or.inr (List.mem_cons_of_mem _ h)
    · have hstep : pyMin key x (y :: ys) = pyMin key x ys := by
        simp [pyMin, if_neg hyx]
      rw [hstep]
      rcases pyMin_mem key ys x with h | h
      · exact Or.inl h
      · exact Or.inr (List.mem_cons_of_mem _ h)

theorem nnLoop_perm (d : ℕ → ℕ → ℚ) :
    ∀ (fuel : ℕ) (unvisited : List ℕ) (current : ℕ) (route : List ℕ),
      unvisited.length ≤ fuel →
      (nnLoop d fuel current unvisited route).Perm (route ++ unvisited)
  | 0, unvisited, _, route, hlen => by
    obtain rfl : unvisited = [] := List.eq_nil_of_length_eq_zero (Nat.le_zero.mp hlen)
    simp [nnLoop]
  | _ + 1, [], _, route, _ => by simp [nnLoop]
  | fuel + 1, u :: us, current, route, hlen => by
    simp only [nnLoop]
    have hmem : pyMin (d current) u us ∈ u :: us := by
      rcases pyMin_mem (d current) us u with h | h
      · simp [h]
      · exact List.mem_cons_of_mem _ h
    have hlen' : ((u :: us).erase (pyMin (d current) u us)).length ≤ fuel := by
      rw [List.length_erase_of_mem hmem]
      simpa using Nat.le_of_succ_le_succ hlen
    refine (nnLoop_perm d fuel _ _ _ hlen').trans ?_
    rw [List.append_assoc]
    refine List.Perm.append_left route ?_
    exact (List.perm_cons_erase hmem).symm

theorem nnLoop_append (d : ℕ → ℕ → ℚ) :
    ∀ (fuel current : ℕ) (unvisited route : List ℕ),
      ∃ t, nnLoop d fuel current unvisited route = route ++ t
  | 0, _, _, route => ⟨[], by simp [nnLoop]⟩
  | _ + 1, _, [], route => ⟨[], by simp [nnLoop]⟩
  | fuel + 1, current, u :: us, route => by
    obtain ⟨t, ht⟩ := nnLoop_append d fuel (pyMin (d current) u us)
      ((u :: us).erase (pyMin (d current) u us)) (route ++ [pyMin (d current) u us])
    exact ⟨pyMin (d current) u us :: t, by simp only [nnLoop, ht, List.append_assoc]; rfl⟩

/-- C5: `nearest_neighbor` returns a permutation of the stop indices
`0..n-1` that begins at `start`, and it coincides exactly with the greedy
construction described by the spec (`specNearestNeighbor`): at each step the
unvisited index with minimal matrix distance from the current index is
appended, ties broken by the lowest index. -/
theorem C5_nearest_neighbor_correct (d : ℕ → ℕ → ℚ) (n start : ℕ) (h : start < n) :
    (nearest_neighbor d n start).Perm (List.range n) ∧
    (nearest_neighbor d n start).head? = some start ∧
    nearest_neighbor d n start = specNearestNeighbor d n start := by
  have hmem : start ∈ List.range n := List.mem_range.mpr h
  refine ⟨?_, ?_, ?_⟩
  · rw [nearest_neighbor]
    split
    · exact List.Perm.refl _
    · refine (nnLoop_perm d (n - 1) _ _ _ ?_).trans ?_
      · rw [List.length_erase_of_mem hmem, List.length_range]
      · exact (List.perm_cons_erase hmem).symm
  · rw [nearest_neighbor]
    split
    case isTrue hn =>
      obtain rfl : n = 1 := by omega
      obtain rfl : start = 0 := by omega
      rfl
    case isFalse hn =>
      obtain ⟨t, ht⟩ := nnLoop_append d (n - 1) start ((List.range n).erase start) [start]
      rw [ht]
      rfl
  · rw [nearest_neighbor, specNearestNeighbor]
    split
    · rfl
    · exact nnLoop_eq_specNNLoop d (n - 1) start _ _
        (List.Pairwise.sublist (List.erase_sublist _ _) (List.pairwise_le_range n))

/-- C5 witness: the theorem applied at the concrete 4×4 matrix `dC1` with
start index 0. -/
theorem C5_witness :
    (nearest_neighbor dC1 4 0).Perm (List.range 4) ∧
    (nearest_neighbor dC1 4 0).head? = some 0 ∧
    nearest_neighbor dC1 4 0 = specNearestNeighbor dC1 4 0 :=
  C5_nearest_neighbor_correct dC1 4 0 (by decide)

/-! ### Claim C3: the per-minute rate limiter of `calculate_road_distance` -/

/-- Rate-limiter fields initialized in `RouteOptimizer.__init__`
(route_optimizer.py lines 354-356): `last_api_call = 0`,
`api_calls_this_minute = 0`, `minute_start = 0`.  `time.time()` readings are
modelled as rationals. -/
structure RLState where
  minute_start : ℤ
  api_calls_this_minute : ℕ
  last_api_call : ℚ
deriving Repr, DecidableEq

def rlInit : RLState :=
  { minute_start := 0, api_calls_this_minute := 0, last_api_call := 0 }

/-- The calendar-minute counter reset of `calculate_road_distance`
(route_optimizer.py lines 586-592): `current_minute = int(current_time // 60)`
and the counter restarts at 0 whenever that bucket changes. -/
def rlReset (s : RLState) (t : ℚ) : RLState :=
  if (⌊t / 60⌋ : ℤ) ≠ s.minute_start then
    { s with minute_start := ⌊t / 60⌋, api_calls_this_minute := 0 }
  else s

/-- One consult of the rate limiter in `calculate_road_distance`
(route_optimizer.py lines 585-614) at wall-clock reading `t`: the call is
refused (`None`, air-distance fallback) once 35 calls were counted in the
current calendar minute (line 595); otherwise the caller sleeps so that at
least 1.6 s separate this call from the previous one (lines 599-604) and the
call is placed; `some c` carries the time the call is placed, the new
`last_api_call`. -/
def rlStep (s : RLState) (t : ℚ) : Option ℚ × RLState :=
  if 35 ≤ (rlReset s t).api_calls_this_minute then (none, rlReset s t)
  else if t - (rlReset s t).last_api_call < 8 / 5 then
    (some ((rlReset s t).last_api_call + 8 / 5),
     { rlReset s t with
         last_api_call := (rlReset s t).last_api_call + 8 / 5,
         api_calls_this_minute := (rlReset s t).api_calls_this_minute + 1 })
  else
    (some t,
     { rlReset s t with
         last_api_call := t,
         api_calls_this_minute := (rlReset s t).api_calls_this_minute + 1 })

/-- The placed-call times produced by a sequence of distance requests whose
`time.time()` readings are `ts`. -/
def rlRun : RLState → List ℚ → List ℚ
  | _, [] => []
  | s, t :: ts =>
    match (rlStep s t).1 with
    | none => rlRun (rlStep s t).2 ts
    | some c => c :: rlRun (rlStep s t).2 ts

/-- Execution trace of placed external calls from a fresh optimizer. -/
def rlTrace (ts : List ℚ) : List ℚ := rlRun rlInit ts

/-- Number of placed calls lying in the closed 60-second window starting at
`t0`. -/
def callsInWindow (calls : List ℚ) (t0 : ℚ) : ℕ :=
  (calls.filter fun c => decide (t0 ≤ c ∧ c ≤ t0 + 60)).length

/-- Number of requests of `ts` admitted by the rate limiter whose request
reading falls in calendar minute `m`. -/
def rlMinuteCount : RLState → List ℚ → ℤ → ℕ
  | _, [], _ => 0
  | s, t :: ts, m =>
    (if (⌊t / 60⌋ : ℤ) = m ∧ (rlStep s t).1.isSome then 1 else 0) +
      rlMinuteCount (rlStep s t).2 ts m

theorem rlReset_minute (s : RLState) (t : ℚ) :
    (rlReset s t).minute_start = ⌊t / 60⌋ := by
  rw [rlReset]
  split
  · rfl
  · next h => exact (not_ne_iff.mp h).symm

theorem rlReset_last (s : RLState) (t : ℚ) :
    (rlReset s t).last_api_call = s.last_api_call := by
  rw [rlReset]
  split <;> rfl

theorem rlReset_counter_le {s : RLState} (t : ℚ) (h : s.api_calls_this_minute ≤ 35) :
    (rlReset s t).api_calls_this_minute ≤ 35 := by
  rw [rlReset]
  split
  · exact Nat.zero_le _
  · exact h

theorem rlStep_state_minute (s : RLState) (t : ℚ) :
    (rlStep s t).2.minute_start = ⌊t / 60⌋ := by
  rw [rlStep]
  split
  · exact rlReset_minute s t
  · split <;> exact rlReset_minute s t

theorem rlStep_counter_le {s : RLState} (t : ℚ) (h : s.api_calls_this_minute ≤ 35) :
    (rlStep s t).2.api_calls_this_minute ≤ 35 := by
  rw [rlStep]
  split
  · exact rlReset_counter_le t h
  · next hfull =>
    split <;> · show (rlReset s t).api_calls_this_minute + 1 ≤ 35; omega

theorem rlStep_refused {s : RLState} {t : ℚ}
    (h : 35 ≤ (rlReset s t).api_calls_this_minute) :
    rlStep s t = (none, rlReset s t) := by
  rw [rlStep, if_pos h]

theorem rlStep_admitted {s : RLState} {t : ℚ}
    (h : ¬ 35 ≤ (rlReset s t).api_calls_this_minute) :
    (rlStep s t).1.isSome = true ∧
    (rlStep s t).2.api_calls_this_minute = (rlReset s t).api_calls_this_minute + 1 := by
  rw [rlStep, if_neg h]
  split <;> exact ⟨rfl, rfl⟩

theorem rlMinuteCount_zero (m : ℤ) :
    ∀ (ts : List ℚ) (s : RLState), (∀ t ∈ ts, m < ⌊t / 60⌋) →
      rlMinuteCount s ts m = 0
  | [], _, _ => rfl
  | t :: ts, s, hall => by
    have hne : ¬((⌊t / 60⌋ : ℤ) = m ∧ (rlStep s t).1.isSome) := by
      rintro ⟨h1, _⟩
      exact ne_of_gt (hall t (List.mem_cons_self _ _)) h1
    rw [rlMinuteCount, if_neg hne,
      rlMinuteCount_zero m ts _ (fun t' ht' => hall t' (List.mem_cons_of_mem _ ht'))]

theorem rlMinuteCount_le (m : ℤ) :
    ∀ (ts : List ℚ) (s : RLState),
      ts.Pairwise (· ≤ ·) →
      (∀ t ∈ ts, s.minute_start ≤ ⌊t / 60⌋) →
      s.api_calls_this_minute ≤ 35 →
      rlMinuteCount s ts m +
        (if s.minute_start = m then s.api_calls_this_minute else 0) ≤ 35
  | [], s, _, _, hc => by
    rw [rlMinuteCount]
    split <;> omega
  | t :: ts, s, hsort, hmin, hc => by
    rw [List.pairwise_cons] at hsort
    obtain ⟨hle, hsort'⟩ := hsort
    have hmt := hmin t (List.mem_cons_self _ _)
    have hmono : ∀ t' ∈ ts, (⌊t / 60⌋ : ℤ) ≤ ⌊t' / 60⌋ := fun t' ht' =>
      Int.floor_le_floor (by
        have := hle t' ht'
        linarith)
    have hminr : ∀ t' ∈ ts, ((rlStep s t).2).minute_start ≤ ⌊t' / 60⌋ := by
      intro t' ht'
      rw [rlStep_state_minute]
      exact hmono t' ht'
    have hcr : (rlStep s t).2.api_calls_this_minute ≤ 35 := rlStep_counter_le t hc
    have IH := rlMinuteCount_le m ts (rlStep s t).2 hsort' hminr hcr
    rw [rlStep_state_minute] at IH
    rw [rlMinuteCount]
    by_cases hm : (⌊t / 60⌋ : ℤ) = m
    · rw [if_pos hm] at IH
      by_cases hres : (⌊t / 60⌋ : ℤ) ≠ s.minute_start
      · -- counter was reset; the previous minute differs from m
        have hsm : ¬ s.minute_start = m := fun h => hres (h ▸ hm)
        rw [if_neg hsm]
        have hrc : (rlReset s t).api_calls_this_minute = 0 := by
          rw [rlReset, if_pos hres]
        obtain ⟨hsome, hcnt⟩ :=
          rlStep_admitted (show ¬ 35 ≤ (rlReset s t).api_calls_this_minute by omega)
        rw [if_pos ⟨hm, hsome⟩]
        rw [hcnt, hrc] at IH
        omega
      · -- same minute: the counter keeps accumulating
        have hsm : s.minute_start = m := (not_ne_iff.mp hres).symm.trans hm
        rw [if_pos hsm]
        have hrs : rlReset s t = s := by
          rw [rlReset, if_neg hres]
        by_cases hfull : 35 ≤ (rlReset s t).api_calls_this_minute
        · have hnone : (rlStep s t).1 = none := by rw [rlStep_refused hfull]
          have hstate : (rlStep s t).2 = s := by rw [rlStep_refused hfull, hrs]
          rw [hstate] at IH
          rw [hnone, hstate]
          simp only [Option.isSome_none, Bool.false_eq_true, and_false, if_false]
          omega
        · obtain ⟨hsome, hcnt⟩ := rlStep_admitted hfull
          rw [if_pos ⟨hm, hsome⟩]
          rw [hcnt, hrs] at IH
          omega
    · rw [if_neg hm] at IH
      rw [if_neg (fun h => hm h.1)]
      by_cases hsm : s.minute_start = m
      · -- the request minute moved strictly past m: nothing more counts at m
        have hgt : m < ⌊t / 60⌋ := lt_of_le_of_ne (hsm ▸ hmt) (Ne.symm (hsm ▸ hm))
        have hz := rlMinuteCount_zero m ts (rlStep s t).2
          (fun t' ht' => lt_of_lt_of_le hgt (hmono t' ht'))
        rw [if_pos hsm, hz]
        omega
      · rw [if_neg hsm]
        omega

theorem rlStep_sleep {s : RLState} {t : ℚ}
    (hfull : ¬ 35 ≤ (rlReset s t).api_calls_this_minute)
    (hnear : t - (rlReset s t).last_api_call < 8 / 5) :
    rlStep s t = (some ((rlReset s t).last_api_call + 8 / 5),
      { rlReset s t with
          last_api_call := (rlReset s t).last_api_call + 8 / 5,
          api_calls_this_minute := (rlReset s t).api_calls_this_minute + 1 }) := by
  rw [rlStep, if_neg hfull, if_pos hnear]

theorem rlStep_nosleep {s : RLState} {t : ℚ}
    (hfull : ¬ 35 ≤ (rlReset s t).api_calls_this_minute)
    (hfar : ¬ t - (rlReset s t).last_api_call < 8 / 5) :
    rlStep s t = (some t,
      { rlReset s t with
          last_api_call := t,
          api_calls_this_minute := (rlReset s t).api_calls_this_minute + 1 }) := by
  rw [rlStep, if_neg hfull, if_neg hfar]

theorem rlRun_spacing :
    ∀ (ts : List ℚ) (s : RLState),
      (rlRun s ts).Chain' (fun a b => a + 8 / 5 ≤ b) ∧
      (∀ c, (rlRun s ts).head? = some c → s.last_api_call + 8 / 5 ≤ c)
  | [], _ => ⟨List.chain'_nil, by intro c hc; cases hc⟩
  | t :: ts, s => by
    obtain ⟨hchain, hhead⟩ := rlRun_spacing ts (rlStep s t).2
    by_cases hfull : 35 ≤ (rlReset s t).api_calls_this_minute
    · have hrun : rlRun s (t :: ts) = rlRun (rlStep s t).2 ts := by
        rw [rlRun, rlStep_refused hfull]
      rw [hrun]
      refine ⟨hchain, fun c hc => ?_⟩
      have h2 := hhead c hc
      rw [rlStep_refused hfull, rlReset_last] at h2
      exact h2
    · by_cases hnear : t - (rlReset s t).last_api_call < 8 / 5
      · have hrun : rlRun s (t :: ts) =
            ((rlReset s t).last_api_call + 8 / 5) :: rlRun (rlStep s t).2 ts := by
          rw [rlRun, rlStep_sleep hfull hnear]
        rw [hrun]
        constructor
        · rw [List.chain'_cons']
          refine ⟨fun b hb => ?_, hchain⟩
          have h2 := hhead b hb
          rw [rlStep_sleep hfull hnear] at h2
          exact h2
        · intro c hc
          obtain rfl : (rlReset s t).last_api_call + 8 / 5 = c := by simpa using hc
          rw [rlReset_last]
      · have hrun : rlRun s (t :: ts) = t :: rlRun (rlStep s t).2 ts := by
          rw [rlRun, rlStep_nosleep hfull hnear]
        rw [hrun]
        constructor
        · rw [List.chain'_cons']
          refine ⟨fun b hb => ?_, hchain⟩
          have h2 := hhead b hb
          rw [rlStep_nosleep hfull hnear] at h2
          exact h2
        · intro c hc
          obtain rfl : t = c := by simpa using hc
          rw [rlReset_last] at hnear
          linarith

/-- Request-time trace for the counterexample: 35 requests spaced exactly
1.6 s apart inside calendar minute 0 (at 4.0 s, 5.6 s, ..., 58.4 s) followed
by one request at 60.0 s, the start of calendar minute 1.  Every request is
admitted: the first 35 exhaust minute 0's budget, and the counter then resets
at the minute boundary. -/
def ex3 : List ℚ :=
  [20/5, 28/5, 36/5, 44/5, 52/5, 60/5, 68/5, 76/5, 84/5, 92/5, 100/5, 108/5,
   116/5, 124/5, 132/5, 140/5, 148/5, 156/5, 164/5, 172/5, 180/5, 188/5,
   196/5, 204/5, 212/5, 220/5, 228/5, 236/5, 244/5, 252/5, 260/5, 268/5,
   276/5, 284/5, 292/5, 300/5]

set_option maxHeartbeats 2000000 in
/-- C3 counterexample: on the trace `ex3` the optimizer places 36 external
calls inside the single 60-second window starting at 4.0 s (span 56 s), more
than the 35-per-minute safety threshold: the limiter's counter is keyed to
calendar-minute buckets `int(t // 60)`, not to sliding 60-second windows, so
it resets at the 60 s boundary mid-window. -/
theorem C3_counterexample :
    callsInWindow (rlTrace ex3) 4 = 36 ∧ ¬ callsInWindow (rlTrace ex3) 4 ≤ 35 := by
  have h : rlTrace ex3 = ex3 := by
    norm_num [rlTrace, rlRun, rlStep, rlReset, rlInit, ex3]
  rw [h]
  norm_num [callsInWindow, ex3, List.filter]

/-- C3 (amended): the rate limiter guarantees at most 35 admitted external
calls per *calendar minute* of request time (the bucket `int(t // 60)` its
counter is keyed to), and successive placed calls are at least 1.6 seconds
apart; the bound of 35 for arbitrary sliding 60-second windows does not hold
(see `C3_counterexample`). -/
theorem C3_rate_limit_per_calendar_minute (ts : List ℚ) (m : ℤ)
    (hsort : ts.Pairwise (· ≤ ·)) (hpos : ∀ t ∈ ts, 0 ≤ t) :
    rlMinuteCount rlInit ts m ≤ 35 ∧
    (rlTrace ts).Chain' (fun a b => a + 8 / 5 ≤ b) := by
  constructor
  · have hmin : ∀ t ∈ ts, rlInit.minute_start ≤ ⌊t / 60⌋ := by
      intro t ht
      have : (0 : ℤ) ≤ ⌊t / 60⌋ :=
        Int.floor_nonneg.mpr (div_nonneg (hpos t ht) (by norm_num))
      simpa [rlInit] using this
    have h := rlMinuteCount_le m ts rlInit hsort hmin (Nat.zero_le _)
    split at h <;> omega
  · exact (rlRun_spacing ts rlInit).1

/-- C3 witness: the amended theorem applied at the concrete two-request trace
`[0, 1]`. -/
theorem C3_witness :
    rlMinuteCount rlInit [0, 1] 0 ≤ 35 ∧
    (rlTrace [0, 1]).Chain' (fun a b => a + 8 / 5 ≤ b) :=
  C3_rate_limit_per_calendar_minute [0, 1] 0
    (by norm_num [List.pairwise_cons]) (by norm_num)

/-! ### Claim C7: geocode_address never fails -/

/-- Outcome of one external geocoder request (`self.geocoder.geocode`): a
coordinate, an empty result (`None`), or a raised exception
(`GeocoderTimedOut`, `GeocoderServiceError`, or any other `Exception`), all
of which route_optimizer.py lines 461-464 catch alike. -/
inductive GeoOutcome
  | found (lat lng : ℚ)
  | empty
  | err
deriving Repr, DecidableEq

/-- The caches touched by `geocode_address`: the in-process session cache and
the persistent `GeocodingCache`, each mapping a full address string to a
coordinate pair. -/
structure GeoState where
  session : List (String × (ℚ × ℚ))
  geoCache : List (String × (ℚ × ℚ))
deriving Repr, DecidableEq

/-- Python's `str.strip()` at the character level (whitespace removed from
both ends).  `String.trim` is the same function but is built on `Substring`
byte positions, which do not reduce definitionally; this formulation does. -/
def pyStrip (s : String) : String :=
  String.mk
    (((s.data.dropWhile Char.isWhitespace).reverse.dropWhile Char.isWhitespace).reverse)

/-- The address parts kept by route_optimizer.py lines 407-413: a component
is included when truthy and non-blank after `strip()` (street and city are
additionally dropped when they spell "nan", case-insensitively). -/
def addressParts (street postal_code city : String) : List String :=
  (if street ≠ "" ∧ pyStrip street ≠ "" ∧ (pyStrip street).toLower ≠ "nan"
    then [pyStrip street] else [])
  ++ (if postal_code ≠ "" ∧ pyStrip postal_code ≠ "" then [pyStrip postal_code] else [])
  ++ (if city ≠ "" ∧ pyStrip city ≠ "" ∧ (pyStrip city).toLower ≠ "nan"
    then [pyStrip city] else [])

/-- `full_address = ', '.join(address_parts) + ', Germany'`
(route_optimizer.py line 415). -/
def fullAddress (street postal_code city : String) : String :=
  String.intercalate ", " (addressParts street postal_code city) ++ ", Germany"

/-- `self.postal_coordinates` (route_optimizer.py lines 389-402). -/
def postal_coordinates : List (String × (ℚ × ℚ)) :=
  [("80", (48.1351, 11.5820)), ("81", (48.1200, 11.5800)),
   ("82", (48.0500, 11.4500)), ("85", (48.2500, 11.7500)),
   ("30", (52.3759, 9.7320)), ("48", (51.9607, 7.6261)),
   ("49", (52.4069, 7.8687)), ("86", (48.3000, 10.9000)),
   ("91", (49.4521, 11.0767)), ("60", (50.1109, 8.6821)),
   ("22", (53.5511, 9.9937)), ("01", (51.0504, 13.7373))]

/-- Python's `int(s)` as used on the 3-character postal slice: digits-only
parsing; `none` models the `ValueError` branch, which the enclosing `try` of
`get_coordinates_from_postal` turns into the default coordinate. -/
def parseDigits (s : List Char) : Option ℕ :=
  if s ≠ [] ∧ s.all (fun c => c.isDigit) then
    some (s.foldl (fun n c => 10 * n + (c.toNat - 48)) 0)
  else none

/-- `RouteOptimizer.get_coordinates_from_postal` (route_optimizer.py lines
469-493): two-digit-prefix lookup with a small deterministic jitter from
digits 3-5, and the fixed München default `(48.1351, 11.5820)` when the
prefix is unknown, the postal code is too short, or anything raises. -/
def get_coordinates_from_postal (postal_code : String) (_city : String := "") :
    ℚ × ℚ :=
  let postal := pyStrip postal_code
  if 2 ≤ postal.length then
    match postal_coordinates.lookup (postal.take 2) with
    | some base =>
      if 5 ≤ postal.length then
        match parseDigits (((postal.drop 2).take 3).toList) with
        | some v =>
          (base.1 + ((v : ℚ) / 10000 - 1 / 20), base.2 + ((v : ℚ) / 10000 - 1 / 20))
        | none => (48.1351, 11.5820)
      else base
    | none => (48.1351, 11.5820)
  else (48.1351, 11.5820)

/-- `RouteOptimizer.geocode_address` (route_optimizer.py lines 404-467):
session cache → persistent cache → external geocode of the full address →
external geocode of "postal city" (itself cache-checked) → postal-prefix
fallback.  Geocoder exceptions (`GeoOutcome.err`) jump straight to the
postal-prefix fallback; an empty first result tries the reduced address when
both postal code and city are truthy. -/
def geocode_address (geocoder : String → GeoOutcome) (st : GeoState)
    (street postal_code city : String) : (ℚ × ℚ) × GeoState :=
  let full_address := fullAddress street postal_code city
  match st.session.lookup full_address with
  | some coords => (coords, st)
  | none =>
    match st.geoCache.lookup full_address with
    | some cached =>
      (cached, { st with session := (full_address, cached) :: st.session })
    | none =>
      match geocoder full_address with
      | GeoOutcome.found lat lng =>
        ((lat, lng),
         { session := (full_address, (lat, lng)) :: st.session,
           geoCache := (full_address, (lat, lng)) :: st.geoCache })
      | GeoOutcome.empty =>
        if postal_code ≠ "" ∧ city ≠ "" then
          let fallback_address := postal_code ++ " " ++ city ++ ", Germany"
          match st.geoCache.lookup fallback_address with
          | some cf => (cf, { st with session := (full_address, cf) :: st.session })
          | none =>
            match geocoder fallback_address with
            | GeoOutcome.found lat lng =>
              ((lat, lng),
               { session := (full_address, (lat, lng)) :: st.session,
                 geoCache := (fallback_address, (lat, lng)) ::
                   (full_address, (lat, lng)) :: st.geoCache })
            | _ => (get_coordinates_from_postal postal_code city, st)
        else (get_coordinates_from_postal postal_code city, st)
      | GeoOutcome.err => (get_coordinates_from_postal postal_code city, st)

/-- C7: `geocode_address` is a total function of its inputs (every geocoder
error outcome is handled), and when the caches miss and every external
attempt fails it returns the postal-prefix fallback, which itself returns the
fixed default `(48.1351, 11.5820)` whenever the two-digit prefix is not in
the table. -/
theorem C7_geocode_total_fallback (geocoder : String → GeoOutcome) (st : GeoState)
    (street postal_code city : String)
    (hsession : st.session.lookup (fullAddress street postal_code city) = none)
    (hcache : ∀ a, st.geoCache.lookup a = none)
    (hgeo : ∀ a, geocoder a = GeoOutcome.err ∨ geocoder a = GeoOutcome.empty) :
    (geocode_address geocoder st street postal_code city).1 =
      get_coordinates_from_postal postal_code city ∧
    (∀ postal' city' : String,
      (postal_coordinates.lookup ((pyStrip postal').take 2)).isNone →
      get_coordinates_from_postal postal' city' = (48.1351, 11.5820)) := by
  constructor
  · simp only [geocode_address, hsession, hcache]
    rcases hgeo (fullAddress street postal_code city) with h | h
    · simp [h]
    · simp only [h]
      split
      · rcases hgeo (postal_code ++ " " ++ city ++ ", Germany") with h2 | h2 <;> simp [h2]
      · rfl
  · intro postal' city' hnone
    rw [Option.isNone_iff_eq_none] at hnone
    rw [get_coordinates_from_postal]
    split
    · rw [hnone]
    · rfl

/-- C7 witness: the theorem applied with empty caches, an always-raising
geocoder, and the unknown postal prefix "99". -/
theorem C7_witness :
    (geocode_address (fun _ => GeoOutcome.err) ⟨[], []⟩ "X" "99999" "Y").1 =
      get_coordinates_from_postal "99999" "Y" ∧
    get_coordinates_from_postal "99999" "Y" = (48.1351, 11.5820) := by
  have h := C7_geocode_total_fallback (fun _ => GeoOutcome.err) ⟨[], []⟩
    "X" "99999" "Y" rfl (fun _ => rfl) (fun _ => Or.inl rfl)
  exact ⟨h.1, h.2 "99999" "Y" (by decide)⟩

/-! ### Claim C8: haversine fallback and the routing cache -/

/-- Outcome of one `ors_client.directions` call (route_optimizer.py lines
616-620): a route with distance in meters, duration in seconds and optional
geometry; an empty feature list; or a raised exception (caught at lines
643-645). -/
inductive OrsOutcome
  | ok (distance_m duration_s : ℝ) (geometry : Option String)
  | empty
  | err

/-- One `RoutingCache` entry as stored by `RoutingCache.store_route`. -/
structure RouteEntry where
  distance_km : ℝ
  duration_minutes : ℝ
  geometry : Option String

/-- The persistent routing cache as a map from ordered coordinate pairs to
entries.  The source keys entries by an MD5 hash of the coordinates printed
at 6 decimals plus the fixed "driving-car" profile; the ordered pair of
coordinates stands in for that key here (no claim depends on the key's
rounding granularity). -/
abbrev RouteCache : Type := List (((ℚ × ℚ) × (ℚ × ℚ)) × RouteEntry)

def routeLookup (cache : RouteCache) (fromc toc : ℚ × ℚ) : Option RouteEntry :=
  List.lookup (fromc, toc) cache

/-- Python's `math.atan2 y x`. -/
noncomputable def atan2 (y x : ℝ) : ℝ :=
  if 0 < x then Real.arctan (y / x)
  else if x < 0 then
    (if 0 ≤ y then Real.arctan (y / x) + Real.pi else Real.arctan (y / x) - Real.pi)
  else if 0 < y then Real.pi / 2
  else if y < 0 then -(Real.pi / 2)
  else 0

/-- `RouteOptimizer.calculate_air_distance` (route_optimizer.py lines
647-663): haversine distance with Earth radius 6371 km
(`math.radians x = x·π/180`). -/
noncomputable def calculate_air_distance (lat1 lon1 lat2 lon2 : ℝ) : ℝ :=
  let lat1_rad := lat1 * Real.pi / 180
  let lon1_rad := lon1 * Real.pi / 180
  let lat2_rad := lat2 * Real.pi / 180
  let lon2_rad := lon2 * Real.pi / 180
  let dlat := lat2_rad - lat1_rad
  let dlon := lon2_rad - lon1_rad
  let a := Real.sin (dlat / 2) ^ 2 +
    Real.cos lat1_rad * Real.cos lat2_rad * Real.sin (dlon / 2) ^ 2
  6371 * (2 * atan2 (Real.sqrt a) (Real.sqrt (1 - a)))

/-- Mutable state touched by `calculate_road_distance`: the persistent
routing cache and the rate-limiter fields. -/
structure RoadState where
  cache : RouteCache
  rl : RLState

/-- `RouteOptimizer.calculate_road_distance` (route_optimizer.py lines
574-645) with the ORS client configured, at `time.time()` reading `t`:
cache lookup first (a hit updates only the entry's `last_used` timestamp,
not the mapping modelled here); then the rate limiter; on an admitted call
the oracle's response is converted (m→km, s→min) and stored together with
its geometry; `none` tells the caller to fall back to air distance. -/
noncomputable def calculate_road_distance (ors : (ℚ × ℚ) → (ℚ × ℚ) → OrsOutcome)
    (st : RoadState) (t : ℚ) (fromc toc : ℚ × ℚ) : Option ℝ × RoadState :=
  match routeLookup st.cache fromc toc with
  | some entry => (some entry.distance_km, st)
  | none =>
    match (rlStep st.rl t).1 with
    | none => (none, { st with rl := (rlStep st.rl t).2 })
    | some _ =>
      match ors fromc toc with
      | OrsOutcome.ok dist_m dur_s geom =>
        (some (dist_m / 1000),
         { cache := ((fromc, toc), ⟨dist_m / 1000, dur_s / 60, geom⟩) :: st.cache,
           rl := (rlStep st.rl t).2 })
      | OrsOutcome.empty => (none, { st with rl := (rlStep st.rl t).2 })
      | OrsOutcome.err => (none, { st with rl := (rlStep st.rl t).2 })

/-- `RouteOptimizer.calculate_distance` (route_optimizer.py lines 563-572):
try road routing when an ORS client exists, fall back to air distance. -/
noncomputable def calculate_distance (hasClient : Bool)
    (ors : (ℚ × ℚ) → (ℚ × ℚ) → OrsOutcome) (st : RoadState) (t : ℚ)
    (lat1 lon1 lat2 lon2 : ℚ) : ℝ × RoadState :=
  if hasClient then
    match calculate_road_distance ors st t (lat1, lon1) (lat2, lon2) with
    | (some d, st2) => (d, st2)
    | (none, st2) => (calculate_air_distance lat1 lon1 lat2 lon2, st2)
  else (calculate_air_distance lat1 lon1 lat2 lon2, st)

/-- C8: whenever the external routing call fails — exception, timeout or
empty result — distance resolution returns the haversine distance for the
pair and the routing cache mapping is unchanged: the fallback value is never
stored; only successful external results are stored.  (The rate-limiter
refusal path and the no-client path degrade the same way.) -/
theorem C8_failed_call_not_cached (ors : (ℚ × ℚ) → (ℚ × ℚ) → OrsOutcome)
    (st : RoadState) (t : ℚ) (lat1 lon1 lat2 lon2 : ℚ) (hasClient : Bool)
    (hmiss : routeLookup st.cache (lat1, lon1) (lat2, lon2) = none)
    (hfail : ors (lat1, lon1) (lat2, lon2) = OrsOutcome.err ∨
             ors (lat1, lon1) (lat2, lon2) = OrsOutcome.empty) :
    (calculate_distance hasClient ors st t lat1 lon1 lat2 lon2).1 =
      calculate_air_distance lat1 lon1 lat2 lon2 ∧
    (calculate_distance hasClient ors st t lat1 lon1 lat2 lon2).2.cache = st.cache := by
  cases hasClient
  · exact ⟨rfl, rfl⟩
  · simp only [calculate_distance, calculate_road_distance, hmiss]
    cases hrl : (rlStep st.rl t).1
    · exact ⟨rfl, rfl⟩
    · rcases hfail with h | h <;> simp [h]

/-- C8 witness: the theorem applied with an empty cache and an always-failing
routing oracle. -/
theorem C8_witness :
    (calculate_distance true (fun _ _ => OrsOutcome.err) ⟨[], rlInit⟩ 0 1 2 3 4).1 =
      calculate_air_distance ((1 : ℚ) : ℝ) ((2 : ℚ) : ℝ) ((3 : ℚ) : ℝ) ((4 : ℚ) : ℝ) ∧
    (calculate_distance true (fun _ _ => OrsOutcome.err) ⟨[], rlInit⟩ 0 1 2 3 4).2.cache =
      ([] : List (((ℚ × ℚ) × (ℚ × ℚ)) × RouteEntry)) := by
  exact C8_failed_call_not_cached (fun _ _ => OrsOutcome.err) ⟨[], rlInit⟩ 0 1 2 3 4 true
    rfl (Or.inl rfl)

/-! ### Claim C9: create_distance_matrix shape and signs -/

/-- Address fields of one stop, as consumed by `create_distance_matrix`. -/
structure Stop where
  street : String
  postal_code : String
  city : String

/-- Geocoding phase of `create_distance_matrix` (route_optimizer.py lines
743-763): each stop's coordinates are resolved in order via
`geocode_address`, threading the caches; the resolved coordinates are the
`stop['_coordinates']` values used by the distance loop. -/
def geocodeStops (geocoder : String → GeoOutcome) :
    List Stop → GeoState → List (ℚ × ℚ) × GeoState
  | [], st => ([], st)
  | s :: rest, st =>
    let r := geocode_address geocoder st s.street s.postal_code s.city
    let rr := geocodeStops geocoder rest r.2
    (r.1 :: rr.1, rr.2)

/-- Row `i` of the distance matrix (route_optimizer.py lines 777-800):
entries for each `j` in order; the `i = j` diagonal entry keeps the initial
`0.0`; every other entry comes from `calculate_distance` on the resolved
coordinates.  The injected `clock` supplies one `time.time()` reading per
off-diagonal pair. -/
noncomputable def matrixRow (hasClient : Bool)
    (ors : (ℚ × ℚ) → (ℚ × ℚ) → OrsOutcome) (clock : ℕ → ℚ)
    (coords : List (ℚ × ℚ)) (ci : ℚ × ℚ) (i : ℕ) :
    List ℕ → RoadState → ℕ → List ℝ × RoadState × ℕ
  | [], st, tick => ([], st, tick)
  | j :: js, st, tick =>
    if i = j then
      let r := matrixRow hasClient ors clock coords ci i js st tick
      (0 :: r.1, r.2)
    else
      let cj := coords.getD j (0, 0)
      let dr := calculate_distance hasClient ors st (clock tick) ci.1 ci.2 cj.1 cj.2
      let r := matrixRow hasClient ors clock coords ci i js dr.2 (tick + 1)
      (dr.1 :: r.1, r.2)

/-- The row-major double loop of `create_distance_matrix`. -/
noncomputable def matrixRows (hasClient : Bool)
    (ors : (ℚ × ℚ) → (ℚ × ℚ) → OrsOutcome) (clock : ℕ → ℚ)
    (coords : List (ℚ × ℚ)) :
    List ℕ → RoadState → ℕ → List (List ℝ) × RoadState × ℕ
  | [], st, tick => ([], st, tick)
  | i :: rest, st, tick =>
    let row := matrixRow hasClient ors clock coords (coords.getD i (0, 0)) i
      (List.range coords.length) st tick
    let rows := matrixRows hasClient ors clock coords rest row.2.1 row.2.2
    (row.1 :: rows.1, rows.2)

/-- `RouteOptimizer.create_distance_matrix` (route_optimizer.py lines
728-809): geocode all stops, then fill the `n × n` matrix (initialized to
zeros) at every `i ≠ j`. -/
noncomputable def create_distance_matrix (geocoder : String → GeoOutcome)
    (hasClient : Bool) (ors : (ℚ × ℚ) → (ℚ × ℚ) → OrsOutcome) (clock : ℕ → ℚ)
    (stops : List Stop) (geo : GeoState) (road : RoadState) :
    List (List ℝ) × GeoState × RoadState :=
  let g := geocodeStops geocoder stops geo
  let m := matrixRows hasClient ors clock g.1 (List.range stops.length) road 0
  (m.1, g.2, m.2.1)

/-- All cached route distances are nonnegative. -/
def CacheNonneg (c : RouteCache) : Prop := ∀ e ∈ c, 0 ≤ e.2.distance_km

/-- The routing provider only reports nonnegative distances (its documented
contract: a route length in meters). -/
def OrsNonneg (ors : (ℚ × ℚ) → (ℚ × ℚ) → OrsOutcome) : Prop :=
  ∀ a b d s g, ors a b = OrsOutcome.ok d s g → 0 ≤ d

theorem arctan_nonneg_of_nonneg {z : ℝ} (h : 0 ≤ z) : 0 ≤ Real.arctan z := by
  rw [← Real.arctan_zero]
  exact Real.arctan_strictMono.monotone h

theorem atan2_nonneg {y x : ℝ} (hy : 0 ≤ y) : 0 ≤ atan2 y x := by
  rw [atan2]
  split_ifs with h1 h2 h3 h4
  · exact arctan_nonneg_of_nonneg (div_nonneg hy h1.le)
  · have ha := Real.neg_pi_div_two_lt_arctan (y / x)
    have hb := Real.pi_pos
    linarith
  · positivity
  · exact absurd hy (not_le.mpr h4)
  · exact le_refl 0

theorem calculate_air_distance_nonneg (lat1 lon1 lat2 lon2 : ℝ) :
    0 ≤ calculate_air_distance lat1 lon1 lat2 lon2 := by
  simp only [calculate_air_distance]
  exact mul_nonneg (by norm_num)
    (mul_nonneg (by norm_num) (atan2_nonneg (Real.sqrt_nonneg _)))

theorem calculate_distance_spec (hasClient : Bool)
    (ors : (ℚ × ℚ) → (ℚ × ℚ) → OrsOutcome) (st : RoadState) (t : ℚ)
    (l1 o1 l2 o2 : ℚ) (hc : CacheNonneg st.cache) (ho : OrsNonneg ors) :
    0 ≤ (calculate_distance hasClient ors st t l1 o1 l2 o2).1 ∧
    CacheNonneg (calculate_distance hasClient ors st t l1 o1 l2 o2).2.cache := by
  cases hasClient
  · exact ⟨calculate_air_distance_nonneg _ _ _ _, hc⟩
  · simp only [calculate_distance, calculate_road_distance]
    cases hlk : routeLookup st.cache (l1, o1) (l2, o2) with
    | some entry =>
      refine ⟨?_, hc⟩
      obtain ⟨lA, lB, hsplit, -⟩ := List.lookup_eq_some_iff.mp hlk
      have hmem : (((l1, o1), (l2, o2)), entry) ∈ st.cache := by
        rw [hsplit]
        exact List.mem_append_right _ (List.mem_cons_self _ _)
      exact hc _ hmem
    | none =>
      cases hrl : (rlStep st.rl t).1 with
      | none => exact ⟨calculate_air_distance_nonneg _ _ _ _, hc⟩
      | some c =>
        cases hors : ors (l1, o1) (l2, o2) with
        | ok dm ds g =>
          refine ⟨div_nonneg (ho _ _ _ _ _ hors) (by norm_num), ?_⟩
          intro e he
          rcases List.mem_cons.mp he with rfl | he'
          · exact div_nonneg (ho _ _ _ _ _ hors) (by norm_num)
          · exact hc _ he'
        | empty => exact ⟨calculate_air_distance_nonneg _ _ _ _, hc⟩
        | err => exact ⟨calculate_air_distance_nonneg _ _ _ _, hc⟩

theorem matrixRow_spec (hasClient : Bool) (ors : (ℚ × ℚ) → (ℚ × ℚ) → OrsOutcome)
    (clock : ℕ → ℚ) (coords : List (ℚ × ℚ)) (ci : ℚ × ℚ) (i : ℕ)
    (ho : OrsNonneg ors) :
    ∀ (js : List ℕ) (st : RoadState) (tick : ℕ), CacheNonneg st.cache →
      (matrixRow hasClient ors clock coords ci i js st tick).1.length = js.length ∧
      CacheNonneg (matrixRow hasClient ors clock coords ci i js st tick).2.1.cache ∧
      (∀ x ∈ (matrixRow hasClient ors clock coords ci i js st tick).1, 0 ≤ x) ∧
      (∀ k, k < js.length → js.getD k 0 = i →
        (matrixRow hasClient ors clock coords ci i js st tick).1.getD k 0 = 0)
  | [], st, tick, hc =>
    ⟨rfl, hc, fun x hx => absurd hx (List.not_mem_nil x),
     fun k hk _ => absurd hk (Nat.not_lt_zero k)⟩
  | j :: js, st, tick, hc => by
    simp only [matrixRow]
    by_cases hij : i = j
    · rw [if_pos hij]
      obtain ⟨hlen, hcache, hpos, hdiag⟩ :=
        matrixRow_spec hasClient ors clock coords ci i ho js st tick hc
      refine ⟨by simp only [List.length_cons, hlen], hcache, ?_, ?_⟩
      · intro x hx
        rcases List.mem_cons.mp hx with rfl | hx'
        · exact le_refl 0
        · exact hpos x hx'
      · intro k hk hjk
        cases k with
        | zero => rfl
        | succ k' =>
          rw [List.getD_cons_succ] at hjk ⊢
          exact hdiag k' (by simpa using hk) hjk
    · rw [if_neg hij]
      obtain ⟨hd, hcache2⟩ := calculate_distance_spec hasClient ors st (clock tick)
        ci.1 ci.2 (coords.getD j (0, 0)).1 (coords.getD j (0, 0)).2 hc ho
      obtain ⟨hlen, hcache, hpos, hdiag⟩ :=
        matrixRow_spec hasClient ors clock coords ci i ho js
          (calculate_distance hasClient ors st (clock tick)
            ci.1 ci.2 (coords.getD j (0, 0)).1 (coords.getD j (0, 0)).2).2
          (tick + 1) hcache2
      refine ⟨by simp only [List.length_cons, hlen], hcache, ?_, ?_⟩
      · intro x hx
        rcases List.mem_cons.mp hx with rfl | hx'
        · exact hd
        · exact hpos x hx'
      · intro k hk hjk
        cases k with
        | zero =>
          rw [List.getD_cons_zero] at hjk
          exact absurd hjk.symm hij
        | succ k' =>
          rw [List.getD_cons_succ] at hjk ⊢
          exact hdiag k' (by simpa using hk) hjk

theorem matrixRows_spec (hasClient : Bool) (ors : (ℚ × ℚ) → (ℚ × ℚ) → OrsOutcome)
    (clock : ℕ → ℚ) (coords : List (ℚ × ℚ)) (ho : OrsNonneg ors) :
    ∀ (idxs : List ℕ) (st : RoadState) (tick : ℕ), CacheNonneg st.cache →
      (matrixRows hasClient ors clock coords idxs st tick).1.length = idxs.length ∧
      CacheNonneg (matrixRows hasClient ors clock coords idxs st tick).2.1.cache ∧
      (∀ row ∈ (matrixRows hasClient ors clock coords idxs st tick).1,
        row.length = coords.length ∧ ∀ x ∈ row, 0 ≤ x) ∧
      (∀ k, k < idxs.length → idxs.getD k 0 < coords.length →
        ((matrixRows hasClient ors clock coords idxs st tick).1.getD k []).getD
          (idxs.getD k 0) 0 = 0)
  | [], st, tick, hc =>
    ⟨rfl, hc, fun row hrow => absurd hrow (List.not_mem_nil row),
     fun k hk _ => absurd hk (Nat.not_lt_zero k)⟩
  | i :: rest, st, tick, hc => by
    simp only [matrixRows]
    obtain ⟨hrlen, hrcache, hrpos, hrdiag⟩ :=
      matrixRow_spec hasClient ors clock coords (coords.getD i (0, 0)) i ho
        (List.range coords.length) st tick hc
    obtain ⟨hslen, hscache, hsrows, hsdiag⟩ :=
      matrixRows_spec hasClient ors clock coords ho rest
        (matrixRow hasClient ors clock coords (coords.getD i (0, 0)) i
          (List.range coords.length) st tick).2.1
        (matrixRow hasClient ors clock coords (coords.getD i (0, 0)) i
          (List.range coords.length) st tick).2.2 hrcache
    refine ⟨by simp only [List.length_cons, hslen], hscache, ?_, ?_⟩
    · intro row hrow
      rcases List.mem_cons.mp hrow with rfl | hrow'
      · exact ⟨by simp only [hrlen, List.length_range], hrpos⟩
      · exact hsrows row hrow'
    · intro k hk hklt
      cases k with
      | zero =>
        rw [List.getD_cons_zero] at hklt ⊢
        rw [List.getD_cons_zero]
        refine hrdiag i (by simpa using hklt) ?_
        rw [List.getD_eq_getElem _ _ (by simpa using hklt)]
        exact List.getElem_range i _
      | succ k' =>
        rw [List.getD_cons_succ] at hklt ⊢
        rw [List.getD_cons_succ]
        exact hsdiag k' (by simpa using hk) hklt

theorem geocodeStops_length (geocoder : String → GeoOutcome) :
    ∀ (stops : List Stop) (st : GeoState),
      (geocodeStops geocoder stops st).1.length = stops.length
  | [], _ => rfl
  | s :: rest, st => by
    simp only [geocodeStops, List.length_cons]
    rw [geocodeStops_length geocoder rest]

/-- C9: every matrix returned by `create_distance_matrix` is square over the
stop indices, its diagonal entries are exactly 0, and — given that stored
cache distances and provider-returned distances are nonnegative, per the
provider's contract — every entry is ≥ 0 (the haversine fallback is
nonnegative unconditionally, since its `atan2` is applied to nonnegative
square roots). -/
theorem C9_distance_matrix_wellformed (geocoder : String → GeoOutcome)
    (hasClient : Bool) (ors : (ℚ × ℚ) → (ℚ × ℚ) → OrsOutcome) (clock : ℕ → ℚ)
    (stops : List Stop) (geo : GeoState) (road : RoadState)
    (hc : CacheNonneg road.cache) (ho : OrsNonneg ors) :
    (create_distance_matrix geocoder hasClient ors clock stops geo road).1.length =
      stops.length ∧
    (∀ row ∈ (create_distance_matrix geocoder hasClient ors clock stops geo road).1,
      row.length = stops.length) ∧
    (∀ i, i < stops.length →
      (((create_distance_matrix geocoder hasClient ors clock stops geo road).1.getD
        i []).getD i 0) = 0) ∧
    (∀ row ∈ (create_distance_matrix geocoder hasClient ors clock stops geo road).1,
      ∀ x ∈ row, 0 ≤ x) := by
  have hclen := geocodeStops_length geocoder stops geo
  obtain ⟨hlen, -, hrows, hdiag⟩ :=
    matrixRows_spec hasClient ors clock (geocodeStops geocoder stops geo).1 ho
      (List.range stops.length) road 0 hc
  refine ⟨?_, ?_, ?_, ?_⟩
  · simp only [create_distance_matrix]
    rw [hlen, List.length_range]
  · intro row hrow
    have h := hrows row hrow
    rw [hclen] at h
    exact h.1
  · intro i hi
    have hr : (List.range stops.length).getD i 0 = i := by
      rw [List.getD_eq_getElem _ _ (by simpa using hi)]
      exact List.getElem_range i _
    have h := hdiag i (by simpa using hi) (by rw [hr, hclen]; exact hi)
    rw [hr] at h
    exact h
  · intro row hrow
    exact (hrows row hrow).2

/-- C9 witness: the theorem applied at a concrete 2-stop input with empty
caches and failing external services. -/
theorem C9_witness :
    (create_distance_matrix (fun _ => GeoOutcome.err) true (fun _ _ => OrsOutcome.err)
      (fun _ => 0) [⟨"A", "80331", "M"⟩, ⟨"B", "99", "X"⟩] ⟨[], []⟩ ⟨[], rlInit⟩).1.length
      = 2 ∧
    (∀ row ∈ (create_distance_matrix (fun _ => GeoOutcome.err) true
        (fun _ _ => OrsOutcome.err) (fun _ => 0)
        [⟨"A", "80331", "M"⟩, ⟨"B", "99", "X"⟩] ⟨[], []⟩ ⟨[], rlInit⟩).1,
      row.length = 2) ∧
    (∀ i, i < 2 →
      (((create_distance_matrix (fun _ => GeoOutcome.err) true
        (fun _ _ => OrsOutcome.err) (fun _ => 0)
        [⟨"A", "80331", "M"⟩, ⟨"B", "99", "X"⟩] ⟨[], []⟩ ⟨[], rlInit⟩).1.getD
          i []).getD i 0) = 0) ∧
    (∀ row ∈ (create_distance_matrix (fun _ => GeoOutcome.err) true
        (fun _ _ => OrsOutcome.err) (fun _ => 0)
        [⟨"A", "80331", "M"⟩, ⟨"B", "99", "X"⟩] ⟨[], []⟩ ⟨[], rlInit⟩).1,
      ∀ x ∈ row, 0 ≤ x) := by
  exact C9_distance_matrix_wellformed (fun _ => GeoOutcome.err) true
    (fun _ _ => OrsOutcome.err) (fun _ => 0)
    [⟨"A", "80331", "M"⟩, ⟨"B", "99", "X"⟩] ⟨[], []⟩ ⟨[], rlInit⟩
    (fun e he => absurd he (List.not_mem_nil e))
    (fun a b d s g h => OrsOutcome.noConfusion h)

/-! ### Claim C2: optimize_multiple_routes and per-route exceptions -/

/-- One input row of the optimization DataFrame, reduced to the fields the
coordinator reads. -/
structure Row where
  route_id : String
  street : String
  postal_code : String
  city : String
  customer : String
deriving Repr, DecidableEq

/-- The group keys of pandas `df.groupby(route_column)`, one per distinct
route id.  (pandas emits groups sorted by key; no verified property depends
on group order, so first-appearance order is used here.) -/
def groupKeys (rows : List Row) : List String :=
  (rows.map Row.route_id).dedup

/-- The fields of one per-route result entry that the claims concern. -/
structure GroupResult where
  stops_count : ℕ
  original_order : List ℕ
  optimized_order : List ℕ
  original_distance : ℚ
  optimized_distance : ℚ
  algorithm_used : String
deriving Repr, DecidableEq

/-- The single-stop entry written inline by `optimize_multiple_routes`
(route_optimizer.py lines 1012-1025). -/
def singleStopResult : GroupResult :=
  ⟨1, [0], [0], 0, 0, "No optimization needed"⟩

theorem optimize_route_core_invalid (n : ℕ) (d : ℕ → ℕ → ℚ) (algorithm : String)
    (h1 : algorithm ≠ "nearest_neighbor") (h2 : algorithm ≠ "2_opt")
    (h3 : algorithm ≠ "both") :
    optimize_route_core n d algorithm = none := by
  simp only [optimize_route_core, if_neg h1, if_neg h2, if_neg h3, Option.map_none']

/-- Unfolding of the `"nearest_neighbor"` branch of the algorithm dispatch. -/
theorem optimize_route_core_nearest_neighbor_eq (n : ℕ) (d : ℕ → ℕ → ℚ) :
    optimize_route_core n d "nearest_neighbor" =
      some { original_order := List.range n,
             optimized_order := nearest_neighbor d n 0,
             original_distance := calculate_route_distance (List.range n) d,
             optimized_distance :=
               calculate_route_distance (nearest_neighbor d n 0) d } :=
  rfl

/-- `RouteOptimizer.optimize_route` on a multi-stop group, as the coordinator
calls it: the distance-matrix construction is abstracted by the matrix `D`
(it never raises — every external failure degrades, per C7/C8), and an
unknown algorithm name raises `ValueError` (route_optimizer.py lines
932-933), modelled as `Except.error`. -/
def optimize_route_exc (D : ℕ → ℕ → ℚ) (nstops : ℕ) (algorithm : String) :
    Except String GroupResult :=
  match optimize_route_core nstops D algorithm with
  | some r => Except.ok
      ⟨nstops, r.original_order, r.optimized_order, r.original_distance,
       r.optimized_distance,
       if algorithm = "nearest_neighbor" then "Nearest Neighbor"
       else if algorithm = "2_opt" then "2-Opt" else "Nearest Neighbor + 2-Opt"⟩
  | none => Except.error ("Unknown algorithm: " ++ algorithm)

/-- The per-group loop of `RouteOptimizer.optimize_multiple_routes`
(route_optimizer.py lines 989-1025): one entry per route group; groups with
more than one stop call `optimize_route`, single-stop groups get the inline
trivial entry.  There is no `try`/`except` around the `optimize_route` call,
so an error propagates immediately, abandoning the remaining groups and all
accumulated entries. -/
def multiRoutesLoop (D : String → ℕ → ℕ → ℚ) (rows : List Row)
    (algorithm : String) :
    List String → List (String × GroupResult) →
    Except String (List (String × GroupResult))
  | [], acc => Except.ok acc
  | rid :: rest, acc =>
    if 1 < (rows.filter (fun r => r.route_id == rid)).length then
      match optimize_route_exc (D rid)
          (rows.filter (fun r => r.route_id == rid)).length algorithm with
      | Except.ok r => multiRoutesLoop D rows algorithm rest (acc ++ [(rid, r)])
      | Except.error e => Except.error e
    else multiRoutesLoop D rows algorithm rest (acc ++ [(rid, singleStopResult)])

/-- `RouteOptimizer.optimize_multiple_routes` (route_optimizer.py lines
964-1049), restricted to the per-route results dictionary (the aggregate
summary is computed only after every group has succeeded). -/
def optimize_multiple_routes (D : String → ℕ → ℕ → ℚ) (rows : List Row)
    (algorithm : String) : Except String (List (String × GroupResult)) :=
  multiRoutesLoop D rows algorithm (groupKeys rows) []

theorem multiRoutesLoop_error (D : String → ℕ → ℕ → ℚ) (rows : List Row)
    (algorithm : String)
    (h1 : algorithm ≠ "nearest_neighbor") (h2 : algorithm ≠ "2_opt")
    (h3 : algorithm ≠ "both") :
    ∀ (keys : List String) (acc : List (String × GroupResult)),
      (∃ rid ∈ keys, 1 < (rows.filter (fun r => r.route_id == rid)).length) →
      multiRoutesLoop D rows algorithm keys acc =
        Except.error ("Unknown algorithm: " ++ algorithm)
  | [], _, h => absurd h (by simp)
  | rid :: rest, acc, h => by
    simp only [multiRoutesLoop]
    by_cases hmulti : 1 < (rows.filter (fun r => r.route_id == rid)).length
    · rw [if_pos hmulti]
      have hexc : optimize_route_exc (D rid)
          (rows.filter (fun r => r.route_id == rid)).length algorithm =
          Except.error ("Unknown algorithm: " ++ algorithm) := by
        rw [optimize_route_exc, optimize_route_core_invalid _ _ _ h1 h2 h3]
      rw [hexc]
    · rw [if_neg hmulti]
      apply multiRoutesLoop_error D rows algorithm h1 h2 h3 rest
      rcases h with ⟨rid', hmem, hlen⟩
      rcases List.mem_cons.mp hmem with rfl | hmem'
      · exact absurd hlen hmulti
      · exact ⟨rid', hmem', hlen⟩

theorem multiRoutesLoop_ok (D : String → ℕ → ℕ → ℚ) (rows : List Row)
    (algorithm : String)
    (hvalid : algorithm = "nearest_neighbor" ∨ algorithm = "2_opt" ∨
      algorithm = "both") :
    ∀ (keys : List String) (acc : List (String × GroupResult)),
      ∃ l, multiRoutesLoop D rows algorithm keys acc = Except.ok l ∧
        l.length = acc.length + keys.length
  | [], acc => ⟨acc, rfl, by simp⟩
  | rid :: rest, acc => by
    simp only [multiRoutesLoop]
    by_cases hmulti : 1 < (rows.filter (fun r => r.route_id == rid)).length
    · rw [if_pos hmulti]
      have hsome : ∃ r, optimize_route_core
          (rows.filter (fun r => r.route_id == rid)).length (D rid) algorithm =
          some r := by
        rcases hvalid with rfl | rfl | rfl
        · exact ⟨_, optimize_route_core_nearest_neighbor_eq _ _⟩
        · exact ⟨_, optimize_route_core_two_opt_eq _ _⟩
        · exact ⟨_, optimize_route_core_both_eq _ _⟩
      obtain ⟨r, hr⟩ := hsome
      have hg : ∃ g, optimize_route_exc (D rid)
          (rows.filter (fun r => r.route_id == rid)).length algorithm =
          Except.ok g := ⟨_, by rw [optimize_route_exc, hr]⟩
      obtain ⟨g, hgeq⟩ := hg
      rw [hgeq]
      obtain ⟨l, hl, hlen⟩ :=
        multiRoutesLoop_ok D rows algorithm hvalid rest (acc ++ [(rid, g)])
      refine ⟨l, hl, ?_⟩
      rw [hlen]
      simp only [List.length_append, List.length_cons, List.length_nil]
      omega
    · rw [if_neg hmulti]
      obtain ⟨l, hl, hlen⟩ :=
        multiRoutesLoop_ok D rows algorithm hvalid rest
          (acc ++ [(rid, singleStopResult)])
      refine ⟨l, hl, ?_⟩
      rw [hlen]
      simp only [List.length_append, List.length_cons, List.length_nil]
      omega

/-- Concrete DataFrame rows: two route groups "A" and "B" of two stops
each. -/
def exRows : List Row :=
  [⟨"A", "S1", "80331", "M", "c1"⟩, ⟨"A", "S2", "80333", "M", "c2"⟩,
   ⟨"B", "S3", "85643", "S", "c3"⟩, ⟨"B", "S4", "85609", "A", "c4"⟩]

/-- C2 counterexample: with two multi-stop route groups and an unrecognized
algorithm name, the first group's `ValueError` escapes
`optimize_multiple_routes` as a whole-batch error: no caught-exception entry
is recorded for route "A" and route "B" is never optimized, contradicting
the claimed per-route isolation. -/
theorem C2_counterexample :
    optimize_multiple_routes (fun _ _ _ => 0) exRows "bogus" =
      Except.error ("Unknown algorithm: bogus") ∧
    (optimize_multiple_routes (fun _ _ _ => 0) exRows "bogus").toOption = none :=
  ⟨rfl, rfl⟩

/-- C2 (amended): `optimize_multiple_routes` has no per-route exception
handling: an exception while optimizing one route group propagates and
aborts the whole batch — no caught-exception entry is recorded and the
remaining groups are not processed (only the web-layer caller catches it,
discarding all per-route results).  With a recognized algorithm every route
group yields exactly one entry. -/
theorem C2_exception_aborts_batch (D : String → ℕ → ℕ → ℚ) (rows : List Row)
    (algorithm : String)
    (hbad : algorithm ≠ "nearest_neighbor" ∧ algorithm ≠ "2_opt" ∧
      algorithm ≠ "both")
    (hmulti : ∃ rid ∈ groupKeys rows,
      1 < (rows.filter (fun r => r.route_id == rid)).length) :
    optimize_multiple_routes D rows algorithm =
      Except.error ("Unknown algorithm: " ++ algorithm) ∧
    (∀ alg', (alg' = "nearest_neighbor" ∨ alg' = "2_opt" ∨ alg' = "both") →
      ∃ l, optimize_multiple_routes D rows alg' = Except.ok l ∧
        l.length = (groupKeys rows).length) := by
  constructor
  · exact multiRoutesLoop_error D rows algorithm hbad.1 hbad.2.1 hbad.2.2 _ _ hmulti
  · intro alg' hv
    obtain ⟨l, hl, hlen⟩ := multiRoutesLoop_ok D rows alg' hv (groupKeys rows) []
    exact ⟨l, hl, by simpa using hlen⟩

/-- C2 witness: the amended theorem applied at the concrete rows `exRows`. -/
theorem C2_witness :
    optimize_multiple_routes (fun _ _ _ => 0) exRows "bogus" =
      Except.error ("Unknown algorithm: bogus") ∧
    ∃ l, optimize_multiple_routes (fun _ _ _ => 0) exRows "both" = Except.ok l ∧
      l.length = (groupKeys exRows).length := by
  have h := C2_exception_aborts_batch (fun _ _ _ => 0) exRows "bogus"
    ⟨by decide, by decide, by decide⟩ ⟨"A", by decide, by decide⟩
  exact ⟨h.1, h.2 "both" (Or.inr (Or.inr rfl))⟩

end RouteOpt
